import Mathlib

/-!
Verification of the flight ranking & recommendation engine
(`flight_filter.py`: `clean_price`, `find_direct_flights`;
`agent.py` / `streamlit_app.py`: the inline `recommend` logic).

The Python code is shallowly embedded:

* JSON-compatible Python values are the inductive type `JVal`; Python floats
  are modelled as exact rationals plus the non-finite values `inf`, `-inf`,
  `nan` (binary floating-point rounding is abstracted to exact arithmetic).
* Fallible Python code is embedded in `Except PyErr`; an uncaught Python
  exception is an `Except.error`.
* Python's stable `sorted(key=...)` is embedded as `List.mergeSort`, which is
  a stable sort; any two stable sorts agree on every input, so this is
  faithful to CPython's Timsort at the level of input/output behaviour.
* Python `dict`s (JSON objects) are association lists with distinct keys,
  in insertion order; `dict.get`/`[]`/`in`/`.values()` are modelled below.
* Python `==`-based membership (sets used for seen flight numbers / airlines)
  is modelled by structural equality on `JVal`.  (CPython's extra
  identity-or-equality rule and numeric cross-type equality such as
  `1 == 1.0` are abstracted; all discriminating fields in this program are
  strings, where Python equality is structural.)

The file-path / `json.load` wrapper of `find_direct_flights` is I/O glue;
per the spec (§6) the engine's true input contract is "a parsed
JSON-compatible structure", which is what the embedding takes.
-/

/-- Python float values: exact finite rationals plus the three non-finite
floats.  JSON parsing in CPython accepts `Infinity`, `-Infinity` and `NaN`
by default, and `float('inf')` etc. exist as ordinary runtime values. -/
inductive PFloat where
  | finite (q : ℚ)
  | inf
  | neginf
  | nan
deriving DecidableEq, Repr

/-- JSON-compatible Python values (the payload universe of the program).
Objects are association lists of string keys in insertion order. -/
inductive JVal where
  | null
  | bool (b : Bool)
  | int (n : ℤ)
  | float (f : PFloat)
  | str (s : String)
  | list (xs : List JVal)
  | obj (kvs : List (String × JVal))

mutual

/-- Decidable structural equality on `JVal` (written by hand because the
deriving handler does not support this nested inductive). -/
def JVal.decEq : (a b : JVal) → Decidable (a = b)
  | .null, .null => .isTrue rfl
  | .null, .bool _ => .isFalse (fun h => nomatch h)
  | .null, .int _ => .isFalse (fun h => nomatch h)
  | .null, .float _ => .isFalse (fun h => nomatch h)
  | .null, .str _ => .isFalse (fun h => nomatch h)
  | .null, .list _ => .isFalse (fun h => nomatch h)
  | .null, .obj _ => .isFalse (fun h => nomatch h)
  | .bool _, .null => .isFalse (fun h => nomatch h)
  | .bool a, .bool b =>
    match instDecidableEqBool a b with
    | .isTrue h => .isTrue (by rw [h])
    | .isFalse h => .isFalse (fun he => h (by cases he; rfl))
  | .bool _, .int _ => .isFalse (fun h => nomatch h)
  | .bool _, .float _ => .isFalse (fun h => nomatch h)
  | .bool _, .str _ => .isFalse (fun h => nomatch h)
  | .bool _, .list _ => .isFalse (fun h => nomatch h)
  | .bool _, .obj _ => .isFalse (fun h => nomatch h)
  | .int _, .null => .isFalse (fun h => nomatch h)
  | .int _, .bool _ => .isFalse (fun h => nomatch h)
  | .int a, .int b =>
    match Int.decEq a b with
    | .isTrue h => .isTrue (by rw [h])
    | .isFalse h => .isFalse (fun he => h (by cases he; rfl))
  | .int _, .float _ => .isFalse (fun h => nomatch h)
  | .int _, .str _ => .isFalse (fun h => nomatch h)
  | .int _, .list _ => .isFalse (fun h => nomatch h)
  | .int _, .obj _ => .isFalse (fun h => nomatch h)
  | .float _, .null => .isFalse (fun h => nomatch h)
  | .float _, .bool _ => .isFalse (fun h => nomatch h)
  | .float _, .int _ => .isFalse (fun h => nomatch h)
  | .float a, .float b =>
    match (inferInstance : Decidable (a = b)) with
    | .isTrue h => .isTrue (by rw [h])
    | .isFalse h => .isFalse (fun he => h (by cases he; rfl))
  | .float _, .str _ => .isFalse (fun h => nomatch h)
  | .float _, .list _ => .isFalse (fun h => nomatch h)
  | .float _, .obj _ => .isFalse (fun h => nomatch h)
  | .str _, .null => .isFalse (fun h => nomatch h)
  | .str _, .bool _ => .isFalse (fun h => nomatch h)
  | .str _, .int _ => .isFalse (fun h => nomatch h)
  | .str _, .float _ => .isFalse (fun h => nomatch h)
  | .str a, .str b =>
    match String.decEq a b with
    | .isTrue h => .isTrue (by rw [h])
    | .isFalse h => .isFalse (fun he => h (by cases he; rfl))
  | .str _, .list _ => .isFalse (fun h => nomatch h)
  | .str _, .obj _ => .isFalse (fun h => nomatch h)
  | .list _, .null => .isFalse (fun h => nomatch h)
  | .list _, .bool _ => .isFalse (fun h => nomatch h)
  | .list _, .int _ => .isFalse (fun h => nomatch h)
  | .list _, .float _ => .isFalse (fun h => nomatch h)
  | .list _, .str _ => .isFalse (fun h => nomatch h)
  | .list xs, .list ys =>
    match JVal.decEqL xs ys with
    | .isTrue h => .isTrue (by rw [h])
    | .isFalse h => .isFalse (fun he => h (by cases he; rfl))
  | .list _, .obj _ => .isFalse (fun h => nomatch h)
  | .obj _, .null => .isFalse (fun h => nomatch h)
  | .obj _, .bool _ => .isFalse (fun h => nomatch h)
  | .obj _, .int _ => .isFalse (fun h => nomatch h)
  | .obj _, .float _ => .isFalse (fun h => nomatch h)
  | .obj _, .str _ => .isFalse (fun h => nomatch h)
  | .obj _, .list _ => .isFalse (fun h => nomatch h)
  | .obj xs, .obj ys =>
    match JVal.decEqO xs ys with
    | .isTrue h => .isTrue (by rw [h])
    | .isFalse h => .isFalse (fun he => h (by cases he; rfl))

/-- Decidable equality on lists of `JVal`. -/
def JVal.decEqL : (xs ys : List JVal) → Decidable (xs = ys)
  | [], [] => .isTrue rfl
  | [], _ :: _ => .isFalse (fun h => nomatch h)
  | _ :: _, [] => .isFalse (fun h => nomatch h)
  | x :: xs, y :: ys =>
    match JVal.decEq x y with
    | .isTrue h1 =>
      match JVal.decEqL xs ys with
      | .isTrue h2 => .isTrue (by rw [h1, h2])
      | .isFalse h2 => .isFalse (fun he => h2 (by cases he; rfl))
    | .isFalse h1 => .isFalse (fun he => h1 (by cases he; rfl))

/-- Decidable equality on JSON-object entry lists. -/
def JVal.decEqO : (xs ys : List (String × JVal)) → Decidable (xs = ys)
  | [], [] => .isTrue rfl
  | [], _ :: _ => .isFalse (fun h => nomatch h)
  | _ :: _, [] => .isFalse (fun h => nomatch h)
  | (k1, v1) :: xs, (k2, v2) :: ys =>
    match String.decEq k1 k2 with
    | .isTrue hk =>
      match JVal.decEq v1 v2 with
      | .isTrue h1 =>
        match JVal.decEqO xs ys with
        | .isTrue h2 => .isTrue (by rw [hk, h1, h2])
        | .isFalse h2 => .isFalse (fun he => h2 (by cases he; rfl))
      | .isFalse h1 => .isFalse (fun he => h1 (by cases he; rfl))
    | .isFalse hk => .isFalse (fun he => hk (by cases he; rfl))

end

instance : DecidableEq JVal := JVal.decEq

deriving instance DecidableEq for Except

/-- Uncaught-exception kinds relevant to this program. -/
inductive PyErr where
  | keyError
  | indexError
  | typeError
  | attributeError
  | valueError
  | overflowError
deriving DecidableEq, Repr

/-- Result type of `clean_price`: a finite integer amount or the
`float('inf')` sentinel. -/
inductive Price where
  | fin (n : ℤ)
  | pinf
deriving DecidableEq, Repr

/-- Python `<=` on the values `clean_price` can return (int or `inf`). -/
def Price.ble : Price → Price → Bool
  | .fin a, .fin b => a ≤ b
  | .fin _, .pinf => true
  | .pinf, .fin _ => false
  | .pinf, .pinf => true

/-- Python truthiness of a JSON-compatible value. -/
def JVal.truthy : JVal → Bool
  | .null => false
  | .bool b => b
  | .int n => n != 0
  | .float (.finite q) => q != 0
  | .float _ => true
  | .str s => !s.isEmpty
  | .list xs => !xs.isEmpty
  | .obj kvs => !kvs.isEmpty

/-- Lookup in a Python dict (association list, first matching key). -/
def dictGet? (kvs : List (String × JVal)) (k : String) : Option JVal :=
  (kvs.find? (fun kv => kv.1 == k)).map (·.2)

/-- Python `v.get(key, default)`: `AttributeError` unless `v` is a dict. -/
def pyGetD (v : JVal) (k : String) (d : JVal) : Except PyErr JVal :=
  match v with
  | .obj kvs => .ok ((dictGet? kvs k).getD d)
  | _ => .error .attributeError

/-- Python `v[key]` with a string key: `KeyError` on a dict without the key,
`TypeError` on lists/strings (string indices), `TypeError` otherwise. -/
def pyItemStr (v : JVal) (k : String) : Except PyErr JVal :=
  match v with
  | .obj kvs =>
    match dictGet? kvs k with
    | some x => .ok x
    | none => .error .keyError
  | _ => .error .typeError

/-- Python `v[0]`: first element of a list (or 1-character string of a
string), `IndexError` when empty; `KeyError` on a dict (the int key `0`
never occurs among JSON string keys); `TypeError` if not subscriptable. -/
def pyIndex0 : JVal → Except PyErr JVal
  | .list [] => .error .indexError
  | .list (x :: _) => .ok x
  | .str s =>
    match s.data with
    | [] => .error .indexError
    | c :: _ => .ok (.str (String.mk [c]))
  | .obj _ => .error .keyError
  | _ => .error .typeError

/-- Python iteration, as used by `list.extend`: lists yield elements,
strings yield 1-character strings, dicts yield their keys; other values
raise `TypeError`. -/
def pyIter : JVal → Except PyErr (List JVal)
  | .list xs => .ok xs
  | .str s => .ok (s.data.map (fun c => .str (String.mk [c])))
  | .obj kvs => .ok (kvs.map (fun kv => .str kv.1))
  | _ => .error .typeError

/-- Best-effort Python `str()` used only to build the synthesized booking
link (no claim depends on link text; container reprs are abstracted). -/
def pyStr : JVal → String
  | .null => "None"
  | .bool b => if b then "True" else "False"
  | .int n => toString n
  | .float (.finite q) => toString q
  | .float .inf => "inf"
  | .float .neginf => "-inf"
  | .float .nan => "nan"
  | .str s => s
  | .list _ => "<list>"
  | .obj _ => "<dict>"

/-- Digits of a Python int literal body after the first digit: decimal
digits with single underscores allowed between digits. -/
def pyDigitsCore : List Char → ℕ → Option ℕ
  | [], acc => some acc
  | '_' :: c :: cs, acc =>
    if c.isDigit then pyDigitsCore cs (acc * 10 + (c.toNat - 48)) else none
  | ['_'], _ => none
  | c :: cs, acc =>
    if c.isDigit then pyDigitsCore cs (acc * 10 + (c.toNat - 48)) else none

/-- A nonempty Python digit sequence (must start with a digit). -/
def pyDigitSeq : List Char → Option ℕ
  | [] => none
  | c :: cs => if c.isDigit then pyDigitsCore cs (c.toNat - 48) else none

/-- Strip leading and trailing whitespace (Python `str.strip()`; the exotic
Unicode whitespace classes beyond ASCII whitespace are abstracted). -/
def stripChars (cs : List Char) : List Char :=
  ((cs.dropWhile Char.isWhitespace).reverse.dropWhile Char.isWhitespace).reverse

/-- Python `int(s)` on a string: optional surrounding whitespace, optional
sign, then a digit sequence; `none` models `ValueError`. -/
def pyIntOfString? (cs : List Char) : Option ℤ :=
  match stripChars cs with
  | '+' :: rest => (pyDigitSeq rest).map Int.ofNat
  | '-' :: rest => (pyDigitSeq rest).map (fun n => -(n : ℤ))
  | rest => (pyDigitSeq rest).map Int.ofNat

/-- Python `s.replace('INR', '')`: remove non-overlapping occurrences of
`INR` left to right. -/
def removeINR : List Char → List Char
  | 'I' :: 'N' :: 'R' :: cs => removeINR cs
  | c :: cs => c :: removeINR cs
  | [] => []

/-- The string pipeline of `clean_price`:
`price_input.replace('₹', '').replace(',', '').replace('INR', '').strip()`
(single-character replaces with `''` delete every such character). -/
def cleanPriceStr (s : String) : List Char :=
  stripChars (removeINR (((s.data.filter (· ≠ '₹')).filter (· ≠ ','))))

/-- Python `int(x)` truncates a finite float toward zero; `Int.div` is
exactly truncated division. -/
def ratTrunc (q : ℚ) : ℤ := Int.tdiv q.num q.den

/-- Embedding of `clean_price` (`flight_filter.py` lines 3-22).
`None` maps to the `+infinity` sentinel; ints and finite floats to their
(truncated) integer value — note `isinstance(True, int)` holds in Python,
so booleans take the numeric branch; strings are cleaned and parsed with
parse failure mapping to the sentinel; any other value maps to the
sentinel.  `int()` applied to a non-finite float raises `OverflowError`
(for `inf`/`-inf`) or `ValueError` (for `nan`), which `clean_price` does
not catch. -/
def clean_price : JVal → Except PyErr Price
  | .null => .ok .pinf
  | .bool b => .ok (.fin (if b then 1 else 0))
  | .int n => .ok (.fin n)
  | .float (.finite q) => .ok (.fin (ratTrunc q))
  | .float .inf => .error .overflowError
  | .float .neginf => .error .overflowError
  | .float .nan => .error .valueError
  | .str s =>
    .ok (match pyIntOfString? (cleanPriceStr s) with
      | some n => .fin n
      | none => .pinf)
  | .list _ => .ok .pinf
  | .obj _ => .ok .pinf

/-- The canonical flight record built by `find_direct_flights`
(`flight_filter.py` lines 88-97).  Upstream fields are opaque `JVal`s;
`price_value` is the `clean_price` result used for sorting. -/
structure FlightInfo where
  airline : JVal
  flight_number : JVal
  departure : JVal
  arrival : JVal
  duration : JVal
  price_raw : JVal
  price_value : Price
  link : JVal
deriving DecidableEq

/-- Sort key comparison of `sorted(all_flights, key=lambda x: x['price_value'])`. -/
def priceLe (a b : FlightInfo) : Bool := a.price_value.ble b.price_value

/-- First element (if any) of the list heuristic in the fallback scan:
a value matches when it is a nonempty list whose first element is a dict
containing a `'flights'` key (`flight_filter.py` lines 49-51). -/
def looksLikeOfferList : JVal → Bool
  | .list (first :: _) =>
    match first with
    | .obj kvs => (dictGet? kvs "flights").isSome
    | _ => false
  | _ => false

/-- The fallback scan over the payload's top-level values
(`flight_filter.py` lines 47-53): take the first nonempty list whose first
element is a dict with a `'flights'` key, extend `sources` with it, and
`break`. -/
def fallbackScan : List JVal → List JVal
  | [] => []
  | v :: vs =>
    match v with
    | .list (first :: rest) =>
      (match first with
       | .obj kvs =>
         if (dictGet? kvs "flights").isSome then first :: rest else fallbackScan vs
       | _ => fallbackScan vs)
    | _ => fallbackScan vs

/-- Offers contributed by the two well-known groupings
(`flight_filter.py` lines 39-43): `sources.extend(data['best_flights'])`
and `sources.extend(data['other_flights'])`, each only when the key is
present.  `extend` iterates its argument (`TypeError` when not iterable). -/
def groupingOffers (data : List (String × JVal)) : Except PyErr (List JVal) := do
  let s1 ← match dictGet? data "best_flights" with
    | some v => pyIter v
    | none => .ok []
  let s2 ← match dictGet? data "other_flights" with
    | some v => pyIter v
    | none => .ok []
  .ok (s1 ++ s2)

/-- Candidate offer gathering (`flight_filter.py` lines 39-53): the two
groupings, and — when they contributed nothing (`if not sources:`) — the
fallback scan over `data.values()` in insertion order. -/
def gatherSources (data : List (String × JVal)) : Except PyErr (List JVal) := do
  let sources ← groupingOffers data
  if sources.isEmpty then
    .ok (fallbackScan (data.map (·.2)))
  else
    .ok sources

/-- The search-level URL (`flight_filter.py` line 57):
`data.get('search_metadata', {}).get('google_flights_url')`.  The second
`.get` raises `AttributeError` when `search_metadata` is present but not a
dict. -/
def getSearchUrl (data : List (String × JVal)) : Except PyErr JVal :=
  pyGetD ((dictGet? data "search_metadata").getD (.obj [])) "google_flights_url" .null

/-- Body of the per-offer `try:` block (`flight_filter.py` lines 70-98),
in source evaluation order: segment access, link resolution, then the
record literal's field expressions. -/
def tryExtract (searchUrl : JVal) (flight : List (String × JVal)) :
    Except PyErr FlightInfo := do
  let fl ← pyItemStr (.obj flight) "flights"
  let segment ← pyIndex0 fl
  let booking_token := (dictGet? flight "booking_token").getD .null
  let per_flight_url := (dictGet? flight "google_flights_url").getD .null
  let link_value : JVal :=
    if per_flight_url.truthy then per_flight_url
    else if booking_token.truthy && searchUrl.truthy then
      .str (pyStr searchUrl ++ "&booking_token=" ++ pyStr booking_token)
    else if searchUrl.truthy then searchUrl
    else .str "No link"
  let airline ← pyGetD segment "airline" (.str "Unknown")
  let flight_number ← pyGetD segment "flight_number" (.str "N/A")
  let depAirport ← pyGetD segment "departure_airport" (.obj [])
  let departure ← pyGetD depAirport "time" (.str "Unknown")
  let arrAirport ← pyGetD segment "arrival_airport" (.obj [])
  let arrival ← pyGetD arrAirport "time" (.str "Unknown")
  let duration := (dictGet? flight "total_duration").getD (.str "Unknown")
  let price_raw := (dictGet? flight "price").getD .null
  let price_value ← clean_price price_raw
  .ok { airline, flight_number, departure, arrival, duration, price_raw,
        price_value, link := link_value }

/-- The layover indicator of an offer: `flight.get('layovers')`
(`flight_filter.py` line 65), `None` when absent. -/
def layoverIndicator (kvs : List (String × JVal)) : JVal :=
  (dictGet? kvs "layovers").getD .null

/-- One iteration of the offer loop (`flight_filter.py` lines 59-102):
skip truthy-layover offers; run the `try:` body catching exactly
`KeyError` and `IndexError` (skip with a diagnostic print); other
exceptions — `TypeError`, `AttributeError`, `OverflowError`,
`ValueError` — propagate.  `.ok none` is a skipped offer, `.ok (some f)`
a produced flight. -/
def processOffer (searchUrl : JVal) (offer : JVal) : Except PyErr (Option FlightInfo) :=
  match offer with
  | .obj kvs =>
    if (layoverIndicator kvs).truthy then .ok none
    else
      match tryExtract searchUrl kvs with
      | .ok fi => .ok (some fi)
      | .error .keyError => .ok none
      | .error .indexError => .ok none
      | .error e => .error e
  | _ => .error .attributeError

/-- The full offer loop: `all_flights` accumulated in encounter order. -/
def collectFlights (searchUrl : JVal) : List JVal → Except PyErr (List FlightInfo)
  | [] => .ok []
  | o :: os => do
    let r ← processOffer searchUrl o
    let rest ← collectFlights searchUrl os
    match r with
    | some f => .ok (f :: rest)
    | none => .ok rest

/-- The unsorted extraction phase of `find_direct_flights`
(`flight_filter.py` lines 35-102): gather sources, resolve the search
URL, run the offer loop. -/
def extractUnsorted (data : List (String × JVal)) : Except PyErr (List FlightInfo) := do
  let sources ← gatherSources data
  let searchUrl ← getSearchUrl data
  collectFlights searchUrl sources

/-- Embedding of `find_direct_flights` (`flight_filter.py` lines 24-107)
on an already-parsed top-level JSON object (the file read / JSON parse and
the `FileNotFoundError` guard are I/O glue outside the engine, per spec
§6).  The final step is the stable sort by `price_value` (line 105). -/
def find_direct_flights (data : List (String × JVal)) : Except PyErr (List FlightInfo) :=
  (extractUnsorted data).map (fun all => all.mergeSort priceLe)

/-- The insertion-ordered `unique_airlines` dict of the recommenders
(`agent.py` lines 90-94, `streamlit_app.py` lines 121-124): value list =
first-encountered flight per airline, in first-encounter order.  `seen`
is the set of airline keys already present. -/
def uniqueByAirline : List FlightInfo → List JVal → List FlightInfo
  | [], _ => []
  | f :: fs, seen =>
    if f.airline ∈ seen then uniqueByAirline fs seen
    else f :: uniqueByAirline fs (f.airline :: seen)

/-- The backfill loop (`agent.py` lines 102-110, `streamlit_app.py` lines
129-137): walk the full price-sorted list, skip flight numbers in `seen`,
append and record otherwise, and break as soon as `recommended` reaches
`k` entries. -/
def fillLoop (k : ℕ) : List FlightInfo → List JVal → List FlightInfo → List FlightInfo
  | [], _, acc => acc
  | f :: fs, seen, acc =>
    if f.flight_number ∈ seen then fillLoop k fs seen acc
    else
      let acc1 := acc ++ [f]
      if k ≤ acc1.length then acc1 else fillLoop k fs (f.flight_number :: seen) acc1

/-- The `recommended` list: cheapest-per-airline picks re-sorted by price
(stable), truncated to `max_picks`, backfilled from the full list when
fewer than `max_picks` picks resulted (`agent.py` lines 90-110). -/
def recommendList (flights : List FlightInfo) (max_picks : ℕ) : List FlightInfo :=
  let diverse := (uniqueByAirline flights []).mergeSort priceLe
  let rec0 := diverse.take max_picks
  if rec0.length < max_picks then
    fillLoop max_picks flights (rec0.map (·.flight_number)) rec0
  else rec0

/-- The tolerance test `f['price_value'] <= cheapest_price * (1 + tolerance_pct)`.
Python evaluates it in floats; the embedding computes exactly over ℚ.
When `cheapest_price` is the `inf` sentinel, `inf * (1 + t)` is `inf` for
`1 + t > 0` (every price passes), and `-inf` or `nan` otherwise (no price
passes). -/
def withinThreshold (p : Price) (cheapest : Price) (t : ℚ) : Bool :=
  match cheapest, p with
  | .fin c, .fin v => decide ((v : ℚ) ≤ (c : ℚ) * (1 + t))
  | .fin _, .pinf => false
  | .pinf, _ => decide (0 < 1 + t)

/-- The recommendation logic shared by `agent.py` (lines 79-119, with
`max_picks = 3`, `tolerance_pct = 0.05`) and `streamlit_app.py` (lines
117-150, with user-chosen `top_n` and `tolerance / 100`): on an empty
list both front ends return before any of this math runs (`agent.py` line
79, `streamlit_app.py` line 117); otherwise `cheapest_price` is the first
(price-sorted) flight's price and `alternatives` filters the full list. -/
def recommend (flights : List FlightInfo) (max_picks : ℕ) (tolerance_pct : ℚ) :
    List FlightInfo × List FlightInfo :=
  match flights with
  | [] => ([], [])
  | f0 :: _ =>
    let recommended := recommendList flights max_picks
    let recFns := recommended.map (·.flight_number)
    (recommended,
     flights.filter (fun f =>
       withinThreshold f.price_value f0.price_value tolerance_pct
         && decide (f.flight_number ∉ recFns)))

/-- The inputs on which Python's `int()` raises instead of converting:
the non-finite floats (`OverflowError` for the infinities, `ValueError`
for `nan`). -/
def isNonFiniteFloat : JVal → Bool
  | .float .inf => true
  | .float .neginf => true
  | .float .nan => true
  | _ => false

/-- Shape condition on a segment's airport sub-field: absent, or a dict
(so that `.get('time', 'Unknown')` does not raise `AttributeError`). -/
def airportFieldOk : Option JVal → Bool
  | none => true
  | some (.obj _) => true
  | some _ => false

/-- Shape condition on an offer's price field: absent or any value that
`clean_price` can process without raising. -/
def priceFieldOk : Option JVal → Bool
  | none => true
  | some v => !(isNonFiniteFloat v)

/-- An offer on which the per-offer `try:` body runs to completion:
falsy layover indicator, a `'flights'` list with at least one segment,
a dict-shaped first segment with dict-or-absent airport sub-fields, and
a price that `int()` does not raise on. -/
def wellShapedOffer (kvs : List (String × JVal)) : Bool :=
  !(layoverIndicator kvs).truthy &&
  (match dictGet? kvs "flights" with
   | some (.list (seg :: _)) =>
     (match seg with
      | .obj skvs =>
        airportFieldOk (dictGet? skvs "departure_airport") &&
        airportFieldOk (dictGet? skvs "arrival_airport")
      | _ => false)
     && priceFieldOk (dictGet? kvs "price")
   | _ => false)

/-- Shorthand for canonical flight records in concrete examples. -/
def mkFlight (a fnum : String) (p : Price) : FlightInfo :=
  { airline := .str a, flight_number := .str fnum, departure := .null,
    arrival := .null, duration := .null, price_raw := .null,
    price_value := p, link := .null }

/-- Specification-side minimum `price_value` across a flight list
(`+infinity` for the empty list). -/
def minPrice : List FlightInfo → Price
  | [] => .pinf
  | f :: fs =>
    if f.price_value.ble (minPrice fs) then f.price_value else minPrice fs

example : clean_price (.str "₹4,500") = .ok (.fin 4500) := by decide
example : clean_price (.str "  INR 4500 ") = .ok (.fin 4500) := by decide
example : clean_price (.str "bad") = .ok .pinf := by decide
example : clean_price .null = .ok .pinf := by decide
example : clean_price (.int 5200) = .ok (.fin 5200) := by decide
example : clean_price (.float (.finite (Rat.divInt 9 2))) = .ok (.fin 4) := by decide
example : clean_price (.list []) = .ok .pinf := by decide

example : withinThreshold (.fin 4200) (.fin 4000) (1/20) = true := by
  simp [withinThreshold]
  norm_num
example : withinThreshold (.fin 4201) (.fin 4000) (1/20) = false := by
  simp [withinThreshold]
  norm_num
example : withinThreshold (.pinf) (.pinf) (1/20) = true := by
  simp [withinThreshold]
  norm_num

/-! ### Order properties of the sort key -/

theorem Price.ble_refl : ∀ a : Price, a.ble a = true := by
  intro a
  cases a <;> simp [Price.ble]

theorem Price.ble_pinf : ∀ a : Price, a.ble .pinf = true := by
  intro a
  cases a <;> simp [Price.ble]

theorem Price.ble_trans :
    ∀ a b c : Price, a.ble b = true → b.ble c = true → a.ble c = true := by
  intro a b c
  cases a <;> cases b <;> cases c <;> simp [Price.ble] <;> omega

theorem Price.ble_total : ∀ a b : Price, a.ble b || b.ble a := by
  intro a b
  cases a <;> cases b <;> simp [Price.ble] <;> omega

theorem priceLe_trans :
    ∀ a b c : FlightInfo, priceLe a b → priceLe b c → priceLe a c := by
  intro a b c hab hbc
  exact Price.ble_trans _ _ _ hab hbc

theorem priceLe_total : ∀ a b : FlightInfo, priceLe a b || priceLe b a := by
  intro a b
  exact Price.ble_total _ _

/-- A stable sort does not move elements that are equivalent under the
comparison: filtering the sorted list by any predicate whose satisfying
elements are pairwise `le`-equivalent gives the same list as filtering
the input. -/
theorem mergeSort_filter_stable {α : Type} (le : α → α → Bool)
    (htrans : ∀ a b c : α, le a b → le b c → le a c)
    (htotal : ∀ a b : α, le a b || le b a)
    (p : α → Bool)
    (hp : ∀ a b : α, p a = true → p b = true → le a b = true)
    (l : List α) : (l.mergeSort le).filter p = l.filter p := by
  have hpw : (l.filter p).Pairwise (fun a b => le a b = true) :=
    List.pairwise_of_forall_mem_list (fun a ha b hb =>
      hp a b (List.of_mem_filter ha) (List.of_mem_filter hb))
  have hsub : List.Sublist (l.filter p) (l.mergeSort le) :=
    List.sublist_mergeSort htrans htotal hpw (List.filter_sublist l)
  have h2 : List.Sublist (l.filter p) ((l.mergeSort le).filter p) := by
    have h3 := hsub.filter p
    rwa [List.filter_eq_self.mpr (fun a ha => List.of_mem_filter ha)] at h3
  have h4 : List.Perm ((l.mergeSort le).filter p) (l.filter p) :=
    (List.mergeSort_perm l le).filter p
  exact (h2.eq_of_length h4.length_eq.symm).symm

/-! ### C1 — totality of `clean_price` -/

/-- C1 counterexample: `clean_price` is not total over floats — Python's
`int()` raises `OverflowError` on `float('inf')` and `ValueError` on
`float('nan')`, and `clean_price` catches neither (its `except ValueError`
only guards the string branch's `int(clean_str)` call; the numeric branch
`int(price_input)` is unguarded). -/
theorem clean_price_counterexample :
    clean_price (.float .inf) = .error .overflowError ∧
    clean_price (.float .nan) = .error .valueError :=
  ⟨rfl, rfl⟩

/-- C1 amended: `clean_price` is total — returning a finite integer or the
`+infinity` sentinel, never raising — for every input except the
non-finite floats `inf`, `-inf`, `nan`, on which it raises. -/
theorem clean_price_total (v : JVal) (h : isNonFiniteFloat v = false) :
    ∃ p : Price, clean_price v = .ok p := by
  cases v with
  | null => exact ⟨_, rfl⟩
  | bool b => exact ⟨_, rfl⟩
  | int n => exact ⟨_, rfl⟩
  | float f =>
    cases f with
    | finite q => exact ⟨_, rfl⟩
    | inf => simp [isNonFiniteFloat] at h
    | neginf => simp [isNonFiniteFloat] at h
    | nan => simp [isNonFiniteFloat] at h
  | str s => exact ⟨_, rfl⟩
  | list xs => exact ⟨_, rfl⟩
  | obj kvs => exact ⟨_, rfl⟩

/-- Witness for `clean_price_total` at a well-formed currency string. -/
theorem clean_price_total_witness :
    isNonFiniteFloat (.str "₹4,500") = false ∧
    ∃ p : Price, clean_price (.str "₹4,500") = .ok p :=
  ⟨by decide, clean_price_total (.str "₹4,500") (by decide)⟩

/-! ### C2 — output of `find_direct_flights` is price-sorted and stable -/

/-- C2: whenever `find_direct_flights` returns a list, it is sorted
non-decreasing by `price_value`, and for every price the flights at that
price appear in exactly their encounter order in the unsorted extraction
(`all_flights`): the sort is stable. -/
theorem find_direct_flights_sorted_stable (data : List (String × JVal))
    (out : List FlightInfo) (h : find_direct_flights data = .ok out) :
    out.Pairwise (fun a b => priceLe a b = true) ∧
    ∃ all, extractUnsorted data = .ok all ∧
      ∀ p : Price,
        out.filter (fun f => f.price_value == p) =
          all.filter (fun f => f.price_value == p) := by
  unfold find_direct_flights at h
  cases hall : extractUnsorted data with
  | error e => rw [hall] at h; exact absurd h (by simp [Except.map])
  | ok all =>
    rw [hall] at h
    simp [Except.map] at h
    constructor
    · rw [← h]
      exact List.sorted_mergeSort priceLe_trans priceLe_total all
    · refine ⟨all, rfl, fun p => ?_⟩
      rw [← h]
      exact mergeSort_filter_stable priceLe priceLe_trans priceLe_total _
        (fun a b ha hb => by
          have ha' : a.price_value = p := by simpa using ha
          have hb' : b.price_value = p := by simpa using hb
          simp [priceLe, ha', hb', Price.ble_refl]) all

/-- Witness for `find_direct_flights_sorted_stable` on a one-offer payload. -/
theorem find_direct_flights_sorted_stable_witness :
    [{ airline := .str "Unknown", flight_number := .str "N/A",
       departure := .str "Unknown", arrival := .str "Unknown",
       duration := .str "Unknown", price_raw := .null,
       price_value := .pinf, link := .str "No link" }].Pairwise
        (fun a b => priceLe a b = true) ∧
    ∃ all,
      extractUnsorted [("best_flights", .list [.obj [("flights", .list [.obj []])]])] =
        .ok all ∧
      ∀ p : Price,
        [{ airline := .str "Unknown", flight_number := .str "N/A",
           departure := .str "Unknown", arrival := .str "Unknown",
           duration := .str "Unknown", price_raw := .null,
           price_value := .pinf, link := .str "No link" }].filter
            (fun f => f.price_value == p) =
          all.filter (fun f => f.price_value == p) :=
  find_direct_flights_sorted_stable
    [("best_flights", .list [.obj [("flights", .list [.obj []])]])] _ (by
      rw [find_direct_flights,
        show extractUnsorted
            [("best_flights", .list [.obj [("flights", .list [.obj []])]])] =
          .ok [{ airline := .str "Unknown", flight_number := .str "N/A",
                 departure := .str "Unknown", arrival := .str "Unknown",
                 duration := .str "Unknown", price_raw := .null,
                 price_value := .pinf, link := .str "No link" }] from rfl]
      simp [Except.map, List.mergeSort_singleton])

/-! ### C7 — `recommend` on an empty flight list -/

/-- C7: on an empty (already-guarded-empty) flight list both outputs are
empty and no exception is possible; the guard is structural — the
`cheapest_price` head access and the threshold arithmetic exist only in
the nonempty branch of `recommend`, mirroring the early return in
`agent.py` line 79 and the `if not flights` test in `streamlit_app.py`
line 117. -/
theorem recommend_empty (max_picks : ℕ) (tolerance_pct : ℚ) :
    recommend [] max_picks tolerance_pct = ([], []) := rfl

/-! ### Structure of the diversity pick and the backfill loop -/

theorem uniqueByAirline_sublist :
    ∀ (fs : List FlightInfo) (seen : List JVal),
      List.Sublist (uniqueByAirline fs seen) fs := by
  intro fs
  induction fs with
  | nil => intro seen; exact List.Sublist.refl []
  | cons f fs ih =>
    intro seen
    rw [uniqueByAirline]
    by_cases hm : f.airline ∈ seen
    · rw [if_pos hm]
      exact (ih seen).cons f
    · rw [if_neg hm]
      exact (ih (f.airline :: seen)).cons₂ f

theorem uniqueByAirline_airline_not_mem :
    ∀ (fs : List FlightInfo) (seen : List JVal) (x : JVal), x ∈ seen →
      x ∉ (uniqueByAirline fs seen).map (·.airline) := by
  intro fs
  induction fs with
  | nil => intro seen x hx; simp [uniqueByAirline]
  | cons f fs ih =>
    intro seen x hx
    rw [uniqueByAirline]
    by_cases hm : f.airline ∈ seen
    · rw [if_pos hm]
      exact ih seen x hx
    · rw [if_neg hm]
      simp only [List.map_cons, List.mem_cons, not_or]
      refine ⟨fun h1 => hm (h1 ▸ hx), ?_⟩
      exact ih _ x (List.mem_cons_of_mem _ hx)

theorem uniqueByAirline_airlines_nodup :
    ∀ (fs : List FlightInfo) (seen : List JVal),
      ((uniqueByAirline fs seen).map (·.airline)).Nodup := by
  intro fs
  induction fs with
  | nil => intro seen; simp [uniqueByAirline]
  | cons f fs ih =>
    intro seen
    rw [uniqueByAirline]
    by_cases hm : f.airline ∈ seen
    · rw [if_pos hm]
      exact ih seen
    · rw [if_neg hm]
      simp only [List.map_cons, List.nodup_cons]
      exact ⟨uniqueByAirline_airline_not_mem fs _ _ (List.mem_cons_self _ _), ih _⟩

theorem uniqueByAirline_toFinset :
    ∀ (fs : List FlightInfo) (seen : List JVal),
      ((uniqueByAirline fs seen).map (·.airline)).toFinset =
        (fs.map (·.airline)).toFinset \ seen.toFinset := by
  intro fs
  induction fs with
  | nil => intro seen; simp [uniqueByAirline]
  | cons f fs ih =>
    intro seen
    rw [uniqueByAirline]
    by_cases hm : f.airline ∈ seen
    · rw [if_pos hm, ih seen]
      ext x
      simp only [Finset.mem_sdiff, List.mem_toFinset, List.map_cons,
        List.toFinset_cons, Finset.mem_insert]
      constructor
      · rintro ⟨hx, hns⟩
        exact ⟨Or.inr hx, hns⟩
      · rintro ⟨hx | hx, hns⟩
        · exact absurd (hx ▸ hm) hns
        · exact ⟨hx, hns⟩
    · rw [if_neg hm]
      simp only [List.map_cons, List.toFinset_cons, ih]
      ext x
      simp only [Finset.mem_insert, Finset.mem_sdiff, List.mem_toFinset,
        List.mem_cons, not_or]
      by_cases hxa : x = f.airline
      · subst hxa
        simp [hm]
      · constructor
        · rintro (hx | ⟨hx, _, hns⟩)
          · exact absurd hx hxa
          · exact ⟨Or.inr hx, hns⟩
        · rintro ⟨hx | hx, hns⟩
          · exact absurd hx hxa
          · exact Or.inr ⟨hx, hxa, hns⟩

theorem uniqueByAirline_length (fs : List FlightInfo) :
    (uniqueByAirline fs []).length = (fs.map (·.airline)).toFinset.card := by
  have h1 : ((uniqueByAirline fs []).map (·.airline)).toFinset =
      (fs.map (·.airline)).toFinset := by
    rw [uniqueByAirline_toFinset]
    simp
  have h2 := List.toFinset_card_of_nodup (uniqueByAirline_airlines_nodup fs [])
  rw [h1] at h2
  rw [h2]
  exact (List.length_map _ _).symm

theorem fillLoop_head? (k : ℕ) :
    ∀ (l : List FlightInfo) (seen : List JVal) (acc : List FlightInfo),
      acc ≠ [] → (fillLoop k l seen acc).head? = acc.head? := by
  intro l
  induction l with
  | nil => intro seen acc _; rfl
  | cons f fs ih =>
    intro seen acc h
    rw [fillLoop]
    by_cases hm : f.flight_number ∈ seen
    · rw [if_pos hm]
      exact ih seen acc h
    · rw [if_neg hm]
      by_cases hk : k ≤ (acc ++ [f]).length
      · rw [if_pos hk]
        cases acc with
        | nil => exact absurd rfl h
        | cons a as => simp
      · rw [if_neg hk]
        rw [ih _ _ (by simp)]
        cases acc with
        | nil => exact absurd rfl h
        | cons a as => simp

theorem fillLoop_nodup (k : ℕ) :
    ∀ (l : List FlightInfo) (seen : List JVal) (acc : List FlightInfo),
      ((acc.map (·.flight_number)).Nodup) →
      (∀ x : JVal, x ∈ seen ↔ x ∈ acc.map (·.flight_number)) →
      ((fillLoop k l seen acc).map (·.flight_number)).Nodup := by
  intro l
  induction l with
  | nil => intro seen acc hnd _; exact hnd
  | cons f fs ih =>
    intro seen acc hnd hiff
    rw [fillLoop]
    by_cases hm : f.flight_number ∈ seen
    · rw [if_pos hm]
      exact ih seen acc hnd hiff
    · rw [if_neg hm]
      have hnotin : f.flight_number ∉ acc.map (·.flight_number) :=
        fun h => hm ((hiff _).mpr h)
      have hnd1 : (((acc ++ [f]).map (·.flight_number))).Nodup := by
        rw [List.map_append, List.nodup_append]
        refine ⟨hnd, by simp, ?_⟩
        intro x hx
        simp only [List.map_cons, List.map_nil, List.mem_cons,
          List.not_mem_nil, or_false]
        intro he
        exact hnotin (he ▸ hx)
      by_cases hk : k ≤ (acc ++ [f]).length
      · rw [if_pos hk]
        exact hnd1
      · rw [if_neg hk]
        apply ih _ _ hnd1
        intro x
        rw [List.map_append]
        simp only [List.mem_cons, List.mem_append, List.map_cons,
          List.map_nil, List.not_mem_nil, or_false, hiff x]
        constructor
        · rintro (h | h)
          · exact Or.inr h
          · exact Or.inl h
        · rintro (h | h)
          · exact Or.inr h
          · exact Or.inl h

theorem fillLoop_length (k : ℕ) :
    ∀ (l : List FlightInfo) (seen : List JVal) (acc : List FlightInfo),
      ((l.map (·.flight_number)).Nodup) →
      acc.length < k →
      k ≤ acc.length + l.countP (fun f => decide (f.flight_number ∉ seen)) →
      (fillLoop k l seen acc).length = k := by
  intro l
  induction l with
  | nil =>
    intro seen acc _ hlt hge
    simp only [List.countP_nil] at hge
    omega
  | cons f fs ih =>
    intro seen acc hnd hlt hge
    rw [List.map_cons, List.nodup_cons] at hnd
    rw [fillLoop]
    by_cases hm : f.flight_number ∈ seen
    · rw [if_pos hm]
      apply ih seen acc hnd.2 hlt
      rw [List.countP_cons_of_neg _ _ (by simp [hm])] at hge
      exact hge
    · rw [if_neg hm]
      by_cases hk : k ≤ (acc ++ [f]).length
      · rw [if_pos hk]
        simp only [List.length_append, List.length_cons, List.length_nil] at hk ⊢
        omega
      · rw [if_neg hk]
        apply ih _ _ hnd.2
        · simp only [List.length_append, List.length_cons, List.length_nil] at hk ⊢
          omega
        · have hcong : fs.countP
              (fun g => decide (g.flight_number ∉ f.flight_number :: seen)) =
              fs.countP (fun g => decide (g.flight_number ∉ seen)) := by
            apply List.countP_congr
            intro g hg
            have hne : g.flight_number ≠ f.flight_number :=
              fun he => hnd.1 (he ▸ List.mem_map_of_mem _ hg)
            simp [hne]
          rw [List.countP_cons_of_pos _ _ (by simp [hm])] at hge
          rw [hcong]
          simp only [List.length_append, List.length_cons, List.length_nil]
          omega

theorem length_le_countP_not_mem (l : List FlightInfo) :
    ∀ seen : List JVal, ((l.map (·.flight_number)).Nodup) →
      l.length ≤ l.countP (fun f => decide (f.flight_number ∉ seen)) + seen.length := by
  induction l with
  | nil => intro seen _; simp
  | cons f fs ih =>
    intro seen hnd
    rw [List.map_cons, List.nodup_cons] at hnd
    by_cases hm : f.flight_number ∈ seen
    · rw [List.countP_cons_of_neg _ _ (by simp [hm])]
      have hcong : fs.countP (fun g => decide (g.flight_number ∉ seen)) =
          fs.countP (fun g => decide (g.flight_number ∉ seen.erase f.flight_number)) := by
        apply List.countP_congr
        intro g hg
        have hne : g.flight_number ≠ f.flight_number :=
          fun he => hnd.1 (he ▸ List.mem_map_of_mem _ hg)
        simp [List.mem_erase_of_ne hne]
      have h1 := ih (seen.erase f.flight_number) hnd.2
      have hlen := List.length_erase_of_mem hm
      have h0 : 1 ≤ seen.length := List.length_pos.mpr (List.ne_nil_of_mem hm)
      simp only [List.length_cons]
      rw [hcong]
      omega
    · rw [List.countP_cons_of_pos _ _ (by simp [hm])]
      have h1 := ih seen hnd.2
      simp only [List.length_cons]
      omega

theorem recommend_fst (flights : List FlightInfo) (k : ℕ) (t : ℚ) :
    (recommend flights k t).1 = recommendList flights k := by
  cases flights with
  | nil =>
    simp only [recommend, recommendList, uniqueByAirline, List.mergeSort_nil,
      List.take_nil, List.length_nil, List.map_nil]
    split
    · rfl
    · rfl
  | cons f0 rest => rfl

/-! ### C10 — the overall cheapest flight stays on top -/

/-- C10: for a nonempty price-sorted input and `max_picks ≥ 1`, the first
recommended flight is exactly the first input flight: the head's airline is
the first key inserted into the `unique_airlines` dict, its value is the
head itself, the `diverse` re-sort is stable on an already-sorted
subsequence, `[:max_picks]` keeps the head, and the backfill loop only
appends. -/
theorem recommend_head (flights : List FlightInfo) (max_picks : ℕ) (t : ℚ)
    (hs : flights.Pairwise (fun a b => priceLe a b = true))
    (hne : flights ≠ []) (hk : 1 ≤ max_picks) :
    (recommend flights max_picks t).1.head? = flights.head? := by
  cases flights with
  | nil => exact absurd rfl hne
  | cons f0 rest =>
    rw [recommend_fst]
    have hua : uniqueByAirline (f0 :: rest) [] =
        f0 :: uniqueByAirline rest [f0.airline] := by
      rw [uniqueByAirline, if_neg (by simp)]
    have hsorted_ua :
        (uniqueByAirline (f0 :: rest) []).Pairwise (fun a b => priceLe a b = true) :=
      List.Pairwise.sublist (uniqueByAirline_sublist _ _) hs
    have hms : (uniqueByAirline (f0 :: rest) []).mergeSort priceLe =
        uniqueByAirline (f0 :: rest) [] :=
      List.mergeSort_of_sorted hsorted_ua
    rw [hua] at hms
    simp only [recommendList, hua, hms]
    obtain ⟨m, rfl⟩ : ∃ m, max_picks = m + 1 := ⟨max_picks - 1, by omega⟩
    rw [List.take_succ_cons]
    by_cases hlen :
        (f0 :: (uniqueByAirline rest [f0.airline]).take m).length < m + 1
    · rw [if_pos hlen]
      rw [fillLoop_head? _ _ _ _ (by simp)]
      rfl
    · rw [if_neg hlen]
      rfl

/-- Witness for `recommend_head` on a one-flight list. -/
theorem recommend_head_witness :
    ([mkFlight "IndiGo" "6E-101" (.fin 4000)].Pairwise
      (fun a b => priceLe a b = true)) ∧
    [mkFlight "IndiGo" "6E-101" (.fin 4000)] ≠ [] ∧
    1 ≤ 3 ∧
    (recommend [mkFlight "IndiGo" "6E-101" (.fin 4000)] 3 (1/20)).1.head? =
      [mkFlight "IndiGo" "6E-101" (.fin 4000)].head? :=
  ⟨by decide, by decide, by decide,
    recommend_head [mkFlight "IndiGo" "6E-101" (.fin 4000)] 3 (1/20)
      (by decide) (by decide) (by decide)⟩

/-! ### C4 — duplicate flight numbers in the recommendation -/

/-- C4 counterexample: the diversity phase dedups by airline only, so two
different airlines whose segments lack a flight number (both defaulting to
`'N/A'`) both reach `recommended`, which then carries a duplicate flight
number — on a price-sorted input.  The claim as stated is false. -/
theorem recommend_dup_counterexample :
    ([mkFlight "A" "N/A" (.fin 100), mkFlight "B" "N/A" (.fin 200)].Pairwise
      (fun a b => priceLe a b = true)) ∧
    ¬ (((recommend [mkFlight "A" "N/A" (.fin 100), mkFlight "B" "N/A" (.fin 200)]
        2 (1/20)).1.map (·.flight_number)).Nodup) := by
  constructor
  · decide
  · have h1 : (recommend [mkFlight "A" "N/A" (.fin 100), mkFlight "B" "N/A" (.fin 200)]
        2 (1/20)).1 =
        [mkFlight "A" "N/A" (.fin 100), mkFlight "B" "N/A" (.fin 200)] := by
      rw [recommend_fst]
      simp only [recommendList]
      rw [show uniqueByAirline
            [mkFlight "A" "N/A" (.fin 100), mkFlight "B" "N/A" (.fin 200)] [] =
          [mkFlight "A" "N/A" (.fin 100), mkFlight "B" "N/A" (.fin 200)] from by decide]
      rw [List.mergeSort_of_sorted (by decide)]
      decide
    rw [h1]
    decide

/-- C4 amended: provided no two flights of distinct airlines share a
flight number (the counterexample's only escape hatch — the
airline-keyed dict can select two same-numbered flights of different
airlines), `recommended` carries no duplicate flight number; and —
unconditionally — no recommended flight number ever appears in
`alternatives`, whose filter tests membership in the recommended
number set. -/
theorem recommend_nodup (flights : List FlightInfo) (k : ℕ) (t : ℚ)
    (hs : flights.Pairwise (fun a b => priceLe a b = true))
    (hfa : ∀ f ∈ flights, ∀ g ∈ flights,
      f.flight_number = g.flight_number → f.airline = g.airline) :
    ((recommend flights k t).1.map (·.flight_number)).Nodup ∧
    ∀ f ∈ (recommend flights k t).2,
      f.flight_number ∉ (recommend flights k t).1.map (·.flight_number) := by
  constructor
  · rw [recommend_fst]
    have hsub := uniqueByAirline_sublist flights []
    have hfn_ua : ((uniqueByAirline flights []).map (·.flight_number)).Nodup := by
      have hua_airline := uniqueByAirline_airlines_nodup flights []
      simp only [List.Nodup] at hua_airline ⊢
      rw [List.pairwise_map] at hua_airline ⊢
      refine List.Pairwise.imp_of_mem ?_ hua_airline
      intro a b ha hb hne he
      exact hne (hfa a (hsub.mem ha) b (hsub.mem hb) he)
    have hperm : List.Perm ((uniqueByAirline flights []).mergeSort priceLe)
        (uniqueByAirline flights []) := List.mergeSort_perm _ _
    have hdm : (((uniqueByAirline flights []).mergeSort priceLe).map
        (·.flight_number)).Nodup :=
      hfn_ua.perm (hperm.map _).symm
    have htake : ((((uniqueByAirline flights []).mergeSort priceLe).take k).map
        (·.flight_number)).Nodup :=
      hdm.sublist ((List.take_sublist _ _).map _)
    simp only [recommendList]
    split
    · exact fillLoop_nodup k flights _ _ htake (fun x => Iff.rfl)
    · exact htake
  · intro f hf
    cases flights with
    | nil => simp [recommend] at hf
    | cons f0 rest =>
      rw [recommend_fst]
      simp only [recommend] at hf
      have h2 := (List.mem_filter.mp hf).2
      simp only [Bool.and_eq_true, decide_eq_true_eq] at h2
      exact h2.2

/-- Witness for `recommend_nodup` on a two-airline list with distinct
flight numbers. -/
theorem recommend_nodup_witness :
    ([mkFlight "A" "F1" (.fin 100), mkFlight "B" "F2" (.fin 200)].Pairwise
      (fun a b => priceLe a b = true)) ∧
    (∀ f ∈ [mkFlight "A" "F1" (.fin 100), mkFlight "B" "F2" (.fin 200)],
      ∀ g ∈ [mkFlight "A" "F1" (.fin 100), mkFlight "B" "F2" (.fin 200)],
      f.flight_number = g.flight_number → f.airline = g.airline) ∧
    (((recommend [mkFlight "A" "F1" (.fin 100), mkFlight "B" "F2" (.fin 200)]
        2 (1/20)).1.map (·.flight_number)).Nodup ∧
      ∀ f ∈ (recommend [mkFlight "A" "F1" (.fin 100), mkFlight "B" "F2" (.fin 200)]
          2 (1/20)).2,
        f.flight_number ∉
          (recommend [mkFlight "A" "F1" (.fin 100), mkFlight "B" "F2" (.fin 200)]
            2 (1/20)).1.map (·.flight_number)) :=
  ⟨by decide, by decide,
    recommend_nodup [mkFlight "A" "F1" (.fin 100), mkFlight "B" "F2" (.fin 200)]
      2 (1/20) (by decide) (by decide)⟩

/-! ### C5 — backfill fills `recommended` up to `max_picks` -/

/-- C5 counterexample: with `N ≥ max_picks` flights but repeated flight
numbers (three identical entries), the backfill loop skips every
already-seen number and `recommended` stays short: the claim's promise of
exactly `max_picks` entries fails even though the list has `N ≥ max_picks`
flights of fewer than `max_picks` distinct airlines. -/
theorem recommend_backfill_counterexample :
    ([mkFlight "A" "6E-101" (.fin 100), mkFlight "A" "6E-101" (.fin 100),
       mkFlight "A" "6E-101" (.fin 100)].Pairwise
      (fun a b => priceLe a b = true)) ∧
    3 ≤ ([mkFlight "A" "6E-101" (.fin 100), mkFlight "A" "6E-101" (.fin 100),
       mkFlight "A" "6E-101" (.fin 100)] : List FlightInfo).length ∧
    (([mkFlight "A" "6E-101" (.fin 100), mkFlight "A" "6E-101" (.fin 100),
       mkFlight "A" "6E-101" (.fin 100)].map (·.airline)).toFinset.card < 3) ∧
    (recommend [mkFlight "A" "6E-101" (.fin 100), mkFlight "A" "6E-101" (.fin 100),
       mkFlight "A" "6E-101" (.fin 100)] 3 (1/20)).1.length ≠ 3 := by
  refine ⟨by decide, by decide, by decide, ?_⟩
  have h1 : (recommend [mkFlight "A" "6E-101" (.fin 100),
      mkFlight "A" "6E-101" (.fin 100), mkFlight "A" "6E-101" (.fin 100)]
      3 (1/20)).1 = [mkFlight "A" "6E-101" (.fin 100)] := by
    rw [recommend_fst]
    simp only [recommendList]
    rw [show uniqueByAirline [mkFlight "A" "6E-101" (.fin 100),
        mkFlight "A" "6E-101" (.fin 100), mkFlight "A" "6E-101" (.fin 100)] [] =
        [mkFlight "A" "6E-101" (.fin 100)] from by decide]
    rw [List.mergeSort_singleton]
    decide
  rw [h1]
  decide

/-- C5 amended: the backfill promise holds once the price-sorted list's
flight numbers are pairwise distinct (the counterexample repeats a flight
number, letting the seen-set swallow the walk): with `max_picks ≤ N`
flights and fewer than `max_picks` distinct airlines, `recommended` has
exactly `max_picks` entries, obtained by walking the full list in order
and skipping already-selected flight numbers. -/
theorem recommend_backfill (flights : List FlightInfo) (max_picks : ℕ) (t : ℚ)
    (hs : flights.Pairwise (fun a b => priceLe a b = true))
    (hk : max_picks ≤ flights.length)
    (hdiv : (flights.map (·.airline)).toFinset.card < max_picks)
    (hnd : (flights.map (·.flight_number)).Nodup) :
    (recommend flights max_picks t).1.length = max_picks := by
  rw [recommend_fst]
  have hlen : (uniqueByAirline flights []).length < max_picks := by
    rw [uniqueByAirline_length]
    exact hdiv
  have hmslen : ((uniqueByAirline flights []).mergeSort priceLe).length =
      (uniqueByAirline flights []).length := List.length_mergeSort _
  have htake : ((uniqueByAirline flights []).mergeSort priceLe).take max_picks =
      (uniqueByAirline flights []).mergeSort priceLe :=
    List.take_of_length_le (by omega)
  simp only [recommendList, htake]
  rw [if_pos (by omega)]
  apply fillLoop_length max_picks flights _ _ hnd (by omega)
  have h1 := length_le_countP_not_mem flights
    (((uniqueByAirline flights []).mergeSort priceLe).map (·.flight_number)) hnd
  have h2 : (((uniqueByAirline flights []).mergeSort priceLe).map
      (·.flight_number)).length = (uniqueByAirline flights []).length := by
    rw [List.length_map, hmslen]
  omega

/-- Witness for `recommend_backfill`: two same-airline flights with
distinct numbers, `max_picks = 2`. -/
theorem recommend_backfill_witness :
    ([mkFlight "A" "F1" (.fin 100), mkFlight "A" "F2" (.fin 200)].Pairwise
      (fun a b => priceLe a b = true)) ∧
    2 ≤ ([mkFlight "A" "F1" (.fin 100), mkFlight "A" "F2" (.fin 200)] :
      List FlightInfo).length ∧
    (([mkFlight "A" "F1" (.fin 100), mkFlight "A" "F2" (.fin 200)].map
      (·.airline)).toFinset.card < 2) ∧
    (([mkFlight "A" "F1" (.fin 100), mkFlight "A" "F2" (.fin 200)].map
      (·.flight_number)).Nodup) ∧
    (recommend [mkFlight "A" "F1" (.fin 100), mkFlight "A" "F2" (.fin 200)]
      2 (1/20)).1.length = 2 :=
  ⟨by decide, by decide, by decide, by decide,
    recommend_backfill [mkFlight "A" "F1" (.fin 100), mkFlight "A" "F2" (.fin 200)]
      2 (1/20) (by decide) (by decide) (by decide) (by decide)⟩

/-! ### C6 — the alternatives band -/

theorem ble_minPrice (p : Price) :
    ∀ fs : List FlightInfo, (∀ g ∈ fs, p.ble g.price_value = true) →
      p.ble (minPrice fs) = true := by
  intro fs
  induction fs with
  | nil => intro _; exact Price.ble_pinf p
  | cons g gs ih =>
    intro hall
    rw [minPrice]
    split
    · exact hall g (List.mem_cons_self g gs)
    · exact ih (fun g' hg' => hall g' (List.mem_cons_of_mem _ hg'))

/-- On a price-sorted nonempty list the head's price is the minimum. -/
theorem minPrice_head (f0 : FlightInfo) (rest : List FlightInfo)
    (hs : (f0 :: rest).Pairwise (fun a b => priceLe a b = true)) :
    minPrice (f0 :: rest) = f0.price_value := by
  rw [minPrice,
    if_pos (ble_minPrice _ _ (fun g hg => List.rel_of_pairwise_cons hs hg))]

/-- C6: on a nonempty price-sorted list, `alternatives` is exactly the
filter of the input keeping flights within the tolerance band of the
minimum price (the code reads `cheapest_price` from the head, which on a
sorted list is the minimum) whose flight number is not among the
recommended ones — a filter, so the input's price-ascending order is
preserved. -/
theorem recommend_alternatives (flights : List FlightInfo) (k : ℕ) (t : ℚ)
    (hs : flights.Pairwise (fun a b => priceLe a b = true))
    (hne : flights ≠ []) :
    (recommend flights k t).2 =
      flights.filter (fun f =>
        withinThreshold f.price_value (minPrice flights) t &&
          decide (f.flight_number ∉ (recommend flights k t).1.map (·.flight_number))) := by
  cases flights with
  | nil => exact absurd rfl hne
  | cons f0 rest =>
    rw [minPrice_head f0 rest hs, recommend_fst]
    rfl

/-- Witness for `recommend_alternatives` on a one-flight list. -/
theorem recommend_alternatives_witness :
    ([mkFlight "A" "F1" (.fin 4000)].Pairwise (fun a b => priceLe a b = true)) ∧
    [mkFlight "A" "F1" (.fin 4000)] ≠ [] ∧
    (recommend [mkFlight "A" "F1" (.fin 4000)] 3 (1/20)).2 =
      [mkFlight "A" "F1" (.fin 4000)].filter (fun f =>
        withinThreshold f.price_value (minPrice [mkFlight "A" "F1" (.fin 4000)]) (1/20) &&
          decide (f.flight_number ∉
            (recommend [mkFlight "A" "F1" (.fin 4000)] 3 (1/20)).1.map (·.flight_number))) :=
  ⟨by decide, by decide,
    recommend_alternatives [mkFlight "A" "F1" (.fin 4000)] 3 (1/20)
      (by decide) (by decide)⟩

/-! ### C3 — one flight per qualifying offer, layover offers dropped -/

theorem exceptBind_ok {ε α β : Type} (a : α) (f : α → Except ε β) :
    (Except.ok a : Except ε α) >>= f = f a := rfl

theorem exceptBind_error {ε α β : Type} (e : ε) (f : α → Except ε β) :
    (Except.error e : Except ε α) >>= f = .error e := rfl

/-- Successful completion of the `try:` body under the well-shapedness
conditions: a present nonempty `'flights'` list with a dict first segment,
dict-or-absent airport sub-fields, and a price `int()` does not raise on. -/
theorem tryExtract_ok (u : JVal) (kvs skvs : List (String × JVal))
    (rest : List JVal)
    (hfl : dictGet? kvs "flights" = some (.list (JVal.obj skvs :: rest)))
    (hdep : airportFieldOk (dictGet? skvs "departure_airport") = true)
    (harr : airportFieldOk (dictGet? skvs "arrival_airport") = true)
    (hpr : priceFieldOk (dictGet? kvs "price") = true) :
    ∃ fi : FlightInfo, tryExtract u kvs = .ok fi := by
  have hprice : ∃ p, clean_price ((dictGet? kvs "price").getD .null) = .ok p := by
    cases hv : dictGet? kvs "price" with
    | none => exact ⟨.pinf, rfl⟩
    | some v =>
      rw [hv] at hpr
      simp only [priceFieldOk, Bool.not_eq_true'] at hpr
      simpa using clean_price_total v hpr
  obtain ⟨p, hp⟩ := hprice
  have hdo : ∃ dkvs, (dictGet? skvs "departure_airport").getD (.obj []) = .obj dkvs := by
    cases hv : dictGet? skvs "departure_airport" with
    | none => exact ⟨[], rfl⟩
    | some v =>
      rw [hv] at hdep
      cases v <;> simp [airportFieldOk] at hdep ⊢
  obtain ⟨dkvs, hdo⟩ := hdo
  have hao : ∃ akvs, (dictGet? skvs "arrival_airport").getD (.obj []) = .obj akvs := by
    cases hv : dictGet? skvs "arrival_airport" with
    | none => exact ⟨[], rfl⟩
    | some v =>
      rw [hv] at harr
      cases v <;> simp [airportFieldOk] at harr ⊢
  obtain ⟨akvs, hao⟩ := hao
  refine ⟨{ airline := (dictGet? skvs "airline").getD (.str "Unknown"),
            flight_number := (dictGet? skvs "flight_number").getD (.str "N/A"),
            departure := (dictGet? dkvs "time").getD (.str "Unknown"),
            arrival := (dictGet? akvs "time").getD (.str "Unknown"),
            duration := (dictGet? kvs "total_duration").getD (.str "Unknown"),
            price_raw := (dictGet? kvs "price").getD .null,
            price_value := p,
            link :=
              if ((dictGet? kvs "google_flights_url").getD .null).truthy then
                (dictGet? kvs "google_flights_url").getD .null
              else if ((dictGet? kvs "booking_token").getD .null).truthy && u.truthy then
                .str (pyStr u ++ "&booking_token=" ++
                  pyStr ((dictGet? kvs "booking_token").getD .null))
              else if u.truthy then u
              else .str "No link" }, ?_⟩
  simp only [tryExtract, pyItemStr, hfl, pyIndex0, exceptBind_ok, pyGetD,
    hdo, hao, hp]

/-- C3 counterexample: an offer with no layover indicator and one route
segment can still fail to produce a canonical flight — here its price is
the JSON float `Infinity` (accepted by Python's JSON parser), `int()`
raises `OverflowError` inside the record construction, the
`except (KeyError, IndexError)` clause does not catch it, and the whole
batch aborts instead of yielding exactly one flight for the offer. -/
theorem offer_one_flight_counterexample :
    (layoverIndicator [("flights", .list [.obj []]), ("price", .float .inf)]).truthy
      = false ∧
    dictGet? [("flights", .list [.obj []]), ("price", .float .inf)] "flights" =
      some (.list [.obj []]) ∧
    find_direct_flights
      [("best_flights",
        .list [.obj [("flights", .list [.obj []]), ("price", .float .inf)]])] =
      .error .overflowError :=
  ⟨rfl, rfl, rfl⟩

/-- C3 amended: per candidate offer, (a) a truthy layover indicator means
the offer contributes nothing (`.ok none`); (b) with a falsy indicator
and an absent `'flights'` key or an empty segment list, the offer is
dropped whole (`KeyError`/`IndexError` caught to `.ok none`); (c) with a
falsy indicator, at least one route segment, and well-shaped sub-fields
(dict segment, dict-or-absent airport fields, a price `int()` accepts),
exactly one complete `CanonicalFlight` is produced (`.ok (some fi)`) —
never a partial record, `FlightInfo` being total by construction.  (The
unconditional claim is refuted by `offer_one_flight_counterexample`:
ill-shaped sub-fields abort the batch instead.) -/
theorem offer_one_flight (u : JVal) (kvs : List (String × JVal)) :
    ((layoverIndicator kvs).truthy = true → processOffer u (.obj kvs) = .ok none) ∧
    ((layoverIndicator kvs).truthy = false →
      (dictGet? kvs "flights" = none ∨ dictGet? kvs "flights" = some (.list [])) →
      processOffer u (.obj kvs) = .ok none) ∧
    (wellShapedOffer kvs = true →
      ∃ fi : FlightInfo, processOffer u (.obj kvs) = .ok (some fi)) := by
  refine ⟨?_, ?_, ?_⟩
  · intro h
    simp [processOffer, h]
  · intro h hfl
    simp only [processOffer, h, Bool.false_eq_true, if_false]
    rcases hfl with hfl | hfl
    · simp [tryExtract, pyItemStr, hfl, exceptBind_error]
    · simp [tryExtract, pyItemStr, hfl, pyIndex0, exceptBind_ok, exceptBind_error]
  · intro h
    simp only [wellShapedOffer, Bool.and_eq_true, Bool.not_eq_true'] at h
    obtain ⟨hlay, h2⟩ := h
    cases hfl : dictGet? kvs "flights" with
    | none => rw [hfl] at h2; simp at h2
    | some v =>
      rw [hfl] at h2
      cases v with
      | null => simp at h2
      | bool b => simp at h2
      | int n => simp at h2
      | float f => simp at h2
      | str s => simp at h2
      | obj o => simp at h2
      | list xs =>
        cases xs with
        | nil => simp at h2
        | cons seg segrest =>
          cases seg with
          | null => simp at h2
          | bool b => simp at h2
          | int n => simp at h2
          | float f => simp at h2
          | str s => simp at h2
          | list ys => simp at h2
          | obj skvs =>
            simp only [Bool.and_eq_true] at h2
            obtain ⟨⟨hdep, harr⟩, hpr⟩ := h2
            obtain ⟨fi, hfi⟩ := tryExtract_ok u kvs skvs segrest hfl hdep harr hpr
            refine ⟨fi, ?_⟩
            simp [processOffer, hlay, hfi]

/-- Witness for `offer_one_flight`: a minimal well-shaped offer yields
exactly one flight. -/
theorem offer_one_flight_witness :
    wellShapedOffer [("flights", .list [.obj []])] = true ∧
    ∃ fi : FlightInfo,
      processOffer .null (.obj [("flights", .list [.obj []])]) = .ok (some fi) :=
  ⟨by decide,
    (offer_one_flight .null [("flights", .list [.obj []])]).2.2 (by decide)⟩

/-! ### C8 — malformed offers are skipped, the batch continues -/

/-- C8 counterexample: not every malformed offer is survivable — the
`except` clause catches only `KeyError` and `IndexError`.  An offer whose
`'flights'` field is a number makes `flight['flights'][0]` raise
`TypeError` (`'int' object is not subscriptable`), which propagates and
aborts the whole batch: `find_direct_flights` raises instead of skipping
the offer and continuing. -/
theorem skip_continue_counterexample :
    find_direct_flights [("best_flights", .list [.obj [("flights", .int 42)]])] =
      .error .typeError :=
  rfl

/-- C8 amended: an offer whose segment access fails with the caught
exception kinds — a missing `'flights'` key (`KeyError`) or an empty
segment container (`IndexError`) — is skipped individually (diagnostic
printing is I/O, not modelled), and a skipped offer leaves the rest of
the batch exactly as if it were absent; offers failing with other
exception kinds (`TypeError`/`AttributeError`/`OverflowError`/
`ValueError`) abort the batch instead, per
`skip_continue_counterexample`. -/
theorem skip_continue (u : JVal) :
    (∀ kvs : List (String × JVal),
      (layoverIndicator kvs).truthy = false →
      (tryExtract u kvs = .error .keyError ∨ tryExtract u kvs = .error .indexError) →
      processOffer u (.obj kvs) = .ok none) ∧
    (∀ (pre : List JVal) (o : JVal) (post : List JVal),
      processOffer u o = .ok none →
      collectFlights u (pre ++ o :: post) = collectFlights u (pre ++ post)) := by
  constructor
  · intro kvs hlay htr
    simp only [processOffer, hlay, Bool.false_eq_true, if_false]
    rcases htr with htr | htr
    · rw [htr]
    · rw [htr]
  · intro pre o post h
    induction pre with
    | nil =>
      simp only [List.nil_append, collectFlights, h, exceptBind_ok]
      cases hcp : collectFlights u post with
      | error e => rfl
      | ok rest => rfl
    | cons q pre ih =>
      simp only [List.cons_append, collectFlights, List.append_eq, ih]

/-- Witness for `skip_continue`: an offer with no `'flights'` key is
skipped (KeyError caught) and removing it from the middle of a batch
leaves the result unchanged. -/
theorem skip_continue_witness :
    (layoverIndicator [("price", .int 7)]).truthy = false ∧
    tryExtract .null [("price", .int 7)] = .error .keyError ∧
    processOffer .null (.obj [("price", .int 7)]) = .ok none ∧
    collectFlights .null
      [.obj [("flights", .list [.obj []])], .obj [("price", .int 7)],
       .obj [("flights", .list [.obj []])]] =
      collectFlights .null
        [.obj [("flights", .list [.obj []])], .obj [("flights", .list [.obj []])]] :=
  ⟨by decide, by decide,
    (skip_continue .null).1 [("price", .int 7)] (by decide) (Or.inl (by decide)),
    (skip_continue .null).2 [.obj [("flights", .list [.obj []])]]
      (.obj [("price", .int 7)]) [.obj [("flights", .list [.obj []])]]
      ((skip_continue .null).1 [("price", .int 7)] (by decide) (Or.inl (by decide)))⟩

/-! ### C9 — the fallback source scan -/

/-- C9 counterexample: the fallback scan is gated on `if not sources:`,
not on the absence of the two well-known keys.  Here `'best_flights'` is
present (mapping to an empty list), so by the claim the fallback must not
run and the offer source should be empty — yet `gatherSources` returns
the offers of the unrelated top-level list `'zz'` found by the fallback
scan. -/
theorem fallback_counterexample :
    dictGet? [("best_flights", .list []), ("zz", .list [.obj [("flights", .list [])]])]
      "best_flights" = some (.list []) ∧
    gatherSources
      [("best_flights", .list []), ("zz", .list [.obj [("flights", .list [])]])] =
      .ok [.obj [("flights", .list [])]] :=
  ⟨rfl, rfl⟩

/-- The imperative first-match-then-break scan equals a `find?` over the
top-level values: at most one fallback list is ever used. -/
theorem fallbackScan_eq_find? :
    ∀ vs : List JVal,
      fallbackScan vs =
        match vs.find? looksLikeOfferList with
        | some (.list xs) => xs
        | _ => [] := by
  intro vs
  induction vs with
  | nil => rfl
  | cons v vs ih =>
    by_cases hv : looksLikeOfferList v = true
    · rw [List.find?_cons_of_pos _ hv]
      cases v with
      | list xs =>
        cases xs with
        | nil => simp [looksLikeOfferList] at hv
        | cons first rest =>
          cases first with
          | obj kvs =>
            simp only [looksLikeOfferList] at hv
            simp [fallbackScan, hv]
          | null => simp [looksLikeOfferList] at hv
          | bool b => simp [looksLikeOfferList] at hv
          | int n => simp [looksLikeOfferList] at hv
          | float f => simp [looksLikeOfferList] at hv
          | str s => simp [looksLikeOfferList] at hv
          | list ys => simp [looksLikeOfferList] at hv
      | null => simp [looksLikeOfferList] at hv
      | bool b => simp [looksLikeOfferList] at hv
      | int n => simp [looksLikeOfferList] at hv
      | float f => simp [looksLikeOfferList] at hv
      | str s => simp [looksLikeOfferList] at hv
      | obj kvs => simp [looksLikeOfferList] at hv
    · rw [List.find?_cons_of_neg _ hv]
      rw [← ih]
      cases v with
      | list xs =>
        cases xs with
        | nil => rfl
        | cons first rest =>
          cases first with
          | obj kvs =>
            simp only [looksLikeOfferList] at hv
            simp [fallbackScan, hv]
          | null => rfl
          | bool b => rfl
          | int n => rfl
          | float f => rfl
          | str s => rfl
          | list ys => rfl
      | null => rfl
      | bool b => rfl
      | int n => rfl
      | float f => rfl
      | str s => rfl
      | obj kvs => rfl

/-- C9 amended: the fallback scan runs exactly when the two well-known
groupings contributed no offers (keys absent, or present with empty
contents — not only "neither present", per `fallback_counterexample`);
when it runs, the offer source is the first top-level value that is a
nonempty list whose first element is a dict with a `'flights'` key, and
the scan stops there — at most one fallback list is ever used. -/
theorem gatherSources_spec (data : List (String × JVal)) (out : List JVal)
    (h : gatherSources data = .ok out) :
    ∃ g, groupingOffers data = .ok g ∧
      (g ≠ [] → out = g) ∧
      (g = [] →
        out =
          match (data.map (·.2)).find? looksLikeOfferList with
          | some (.list xs) => xs
          | _ => []) := by
  cases hg : groupingOffers data with
  | error e =>
    rw [gatherSources, hg] at h
    exact absurd h (by simp [exceptBind_error])
  | ok g =>
    rw [gatherSources, hg, exceptBind_ok] at h
    refine ⟨g, rfl, ?_, ?_⟩
    · intro hne
      rw [if_neg (by simpa using hne)] at h
      exact (Except.ok.inj h).symm
    · intro hnil
      subst hnil
      simp only [List.isEmpty_nil, if_true, Except.ok.injEq] at h
      rw [← fallbackScan_eq_find?]
      exact h.symm

/-- Witness for `gatherSources_spec` on a payload with both an empty
grouping and a fallback candidate. -/
theorem gatherSources_spec_witness :
    ∃ g,
      groupingOffers
        [("best_flights", .list []), ("zz", .list [.obj [("flights", .list [])]])] =
        .ok g ∧
      (g ≠ [] → [JVal.obj [("flights", .list [])]] = g) ∧
      (g = [] →
        [JVal.obj [("flights", .list [])]] =
          match ([("best_flights", .list []),
            ("zz", .list [.obj [("flights", .list [])]])].map
              (fun x => x.2)).find? looksLikeOfferList with
          | some (.list xs) => xs
          | _ => []) :=
  gatherSources_spec
    [("best_flights", .list []), ("zz", .list [.obj [("flights", .list [])]])]
    [.obj [("flights", .list [])]] (by decide)
